import Mathlib

/-!
Verification development for the DAMASK crystallographic-orientation core
(`src/python/damask/rotation.py` and `src/python/damask/_orientation.py`).

The Python floating-point doubles are modelled by real numbers; IEEE
infinities, where the code manipulates them explicitly (Rodrigues-Frank
vectors at the half-turn singularity), are modelled by an explicit tagged
value type `FloatVal`.
-/

namespace Damask

/-- The chirality constant `P = -1` (rotation.py, line 5). -/
def Pc : ℝ := -1

/-- A quaternion `(w, x, y, z)`; `Rotation.quaternion` in rotation.py. -/
@[ext]
structure Quat where
  w : ℝ
  x : ℝ
  y : ℝ
  z : ℝ

/-- The identity quaternion, the default of `Rotation.__init__`. -/
def idQ : Quat := ⟨1, 0, 0, 0⟩

/-- Componentwise negation `qu *= -1`. -/
def negQ (q : Quat) : Quat := ⟨-q.w, -q.x, -q.y, -q.z⟩

/-- Squared euclidean norm of the quaternion components. -/
def normSq (q : Quat) : ℝ := q.w ^ 2 + q.x ^ 2 + q.y ^ 2 + q.z ^ 2

/-- Dot product of two quaternions viewed as 4-vectors. -/
def dot4 (a b : Quat) : ℝ := a.w * b.w + a.x * b.x + a.y * b.y + a.z * b.z

/-- Scalar multiple of a quaternion viewed as a 4-vector. -/
def smulQ (c : ℝ) (q : Quat) : Quat := ⟨c * q.w, c * q.x, c * q.y, c * q.z⟩

/-- Hamilton product with the `P` sign convention on the cross term:
`Rotation.__mul__` for a `Rotation` argument (rotation.py, lines 83-89),
before the final standardization:
scalar part `self_q*other_q - dot(self_p, other_p)`, vector part
`self_q*other_p + other_q*self_p + P * cross(self_p, other_p)`. -/
def hamilton (a b : Quat) : Quat :=
  ⟨a.w * b.w - (a.x * b.x + a.y * b.y + a.z * b.z),
   a.w * b.x + b.w * a.x + Pc * (a.y * b.z - a.z * b.y),
   a.w * b.y + b.w * a.y + Pc * (a.z * b.x - a.x * b.z),
   a.w * b.z + b.w * a.z + Pc * (a.x * b.y - a.y * b.x)⟩

open Classical in
/-- `Rotation.standardize` (rotation.py, lines 124-127): negate the
quaternion when its first component is negative. -/
noncomputable def standardize (q : Quat) : Quat :=
  if q.w < 0 then negQ q else q

/-- `Rotation.__mul__` on two rotations (rotation.py, lines 83-90): the
Hamilton product followed by `standardize`. -/
noncomputable def mulR (a b : Quat) : Quat := standardize (hamilton a b)

/-- The conjugation used by `Rotation.inverse` / `Rotation.inversed`
(rotation.py, lines 114-121): negate the vector part `x, y, z`. -/
def conjQ (q : Quat) : Quat := ⟨q.w, -q.x, -q.y, -q.z⟩

/-! Mutation model for the in-place methods of `Rotation`: an operation on a
rotation object is a function from the object's quaternion state to the pair
(returned quaternion, quaternion state of the object afterwards). -/

/-- `Rotation.inverse` (rotation.py, lines 114-117): multiplies the stored
vector part by `-1` in place (`self.quaternion[1:] *= -1`) and returns
`self`, so the returned value and the new state are both the conjugate. -/
def inverseOp (q : Quat) : Quat × Quat := (conjQ q, conjQ q)

/-- `Rotation.inversed` (rotation.py, lines 119-121): `self.copy().inverse()`
mutates a fresh copy, so the returned value is the conjugate while the
original object keeps its state. -/
def inversedOp (q : Quat) : Quat × Quat := (conjQ q, q)

/-- `Rotation.standardize` as an object operation (rotation.py, lines
124-127): in place, returns `self`. -/
noncomputable def standardizeOp (q : Quat) : Quat × Quat :=
  (standardize q, standardize q)

/-- `Rotation.standardized` (rotation.py, lines 129-131):
`self.copy().standardize()`; the original object keeps its state. -/
noncomputable def standardizedOp (q : Quat) : Quat × Quat := (standardize q, q)

/-! ## IEEE double values with infinities

The Rodrigues-Frank representation uses `np.inf` as the half-turn sentinel,
so the code compares, takes absolute values of, adds and scales values that
may be `+inf` or `-inf` (and `0 * inf` produces a NaN). `FloatVal` models
an IEEE double as an exact real number or one of the special values. -/

inductive FloatVal where
  | finite (x : ℝ)
  | pinf
  | ninf
  | nan

/-- IEEE absolute value: `abs(-inf) = inf`, `abs(nan) = nan`. -/
def fabs : FloatVal → FloatVal
  | .finite x => .finite |x|
  | .pinf => .pinf
  | .ninf => .pinf
  | .nan => .nan

/-- IEEE addition restricted to the values the code combines:
`inf + inf = inf`, `(-inf) + (-inf) = -inf`, `inf + (-inf) = nan`,
and NaN propagates. -/
def fadd : FloatVal → FloatVal → FloatVal
  | .nan, _ => .nan
  | _, .nan => .nan
  | .pinf, .ninf => .nan
  | .ninf, .pinf => .nan
  | .pinf, _ => .pinf
  | _, .pinf => .pinf
  | .ninf, _ => .ninf
  | _, .ninf => .ninf
  | .finite x, .finite y => .finite (x + y)

open Classical in
/-- IEEE multiplication by a finite real constant: the sign of the constant
orients the infinities, `0 * (+-inf) = nan`, NaN propagates. -/
noncomputable def fscale (k : ℝ) : FloatVal → FloatVal
  | .finite x => .finite (k * x)
  | .pinf => if 0 < k then .pinf else if k < 0 then .ninf else .nan
  | .ninf => if 0 < k then .ninf else if k < 0 then .pinf else .nan
  | .nan => .nan

/-- IEEE `<=`: any comparison with NaN is false, `-inf <= v <= +inf`
otherwise. -/
def fle : FloatVal → FloatVal → Prop
  | .nan, _ => False
  | _, .nan => False
  | .ninf, _ => True
  | .finite _, .ninf => False
  | .pinf, .ninf => False
  | .finite x, .finite y => x ≤ y
  | .finite _, .pinf => True
  | .pinf, .finite _ => False
  | .pinf, .pinf => True

/-- A component is one of the two infinities. -/
def isInf (v : FloatVal) : Prop := v = .pinf ∨ v = .ninf

/-! ## Symmetry classes -/

/-- The crystal classes of `Symmetry.lattices` (rotation.py, line 422):
`[None, 'orthorhombic', 'tetragonal', 'hexagonal', 'cubic']`. -/
inductive Symmetry where
  | none
  | orthorhombic
  | tetragonal
  | hexagonal
  | cubic
deriving DecidableEq

/-- `Symmetry.inFZ` (rotation.py, lines 567-597) on an already length-checked
Rodrigues-Frank vector: `False` when any component equals `np.inf` (the
comparison `rodrigues == np.inf` is true only for positive infinity), else
the per-class inequalities on the absolute components `Rabs`. -/
def inFZcore (sym : Symmetry) (r0 r1 r2 : FloatVal) : Prop :=
  ¬ (r0 = .pinf ∨ r1 = .pinf ∨ r2 = .pinf) ∧
  (match sym with
   | .cubic =>
       fle (fabs r0) (.finite (Real.sqrt 2 - 1)) ∧
       fle (fabs r1) (.finite (Real.sqrt 2 - 1)) ∧
       fle (fabs r2) (.finite (Real.sqrt 2 - 1)) ∧
       fle (fadd (fadd (fabs r0) (fabs r1)) (fabs r2)) (.finite 1)
   | .hexagonal =>
       fle (fabs r0) (.finite 1) ∧ fle (fabs r1) (.finite 1) ∧
       fle (fabs r2) (.finite 1) ∧
       fle (fadd (fscale (Real.sqrt 3) (fabs r0)) (fabs r1)) (.finite 2) ∧
       fle (fadd (fscale (Real.sqrt 3) (fabs r1)) (fabs r0)) (.finite 2) ∧
       fle (fadd (.finite (Real.sqrt 3)) (fabs r2)) (.finite 2)
   | .tetragonal =>
       fle (fabs r0) (.finite 1) ∧ fle (fabs r1) (.finite 1) ∧
       fle (fadd (fabs r0) (fabs r1)) (.finite (Real.sqrt 2)) ∧
       fle (fadd (fabs r2) (.finite 1)) (.finite (Real.sqrt 2))
   | .orthorhombic =>
       fle (fabs r0) (.finite 1) ∧ fle (fabs r1) (.finite 1) ∧
       fle (fabs r2) (.finite 1)
   | .none => True)

/-- `Symmetry.inFZ` including the length guard (rotation.py, lines 573-574):
an input whose length differs from 3 raises `ValueError`, modelled as
`Except.error ()`. -/
def inFZ (sym : Symmetry) (l : List FloatVal) : Except Unit Prop :=
  match l with
  | [r0, r1, r2] => .ok (inFZcore sym r0 r1 r2)
  | _ => .error ()

/-- The `epsilon = 0.0` of `Symmetry.inDisorientationSST` (line 614). -/
def epsilonSST : ℝ := 0

/-- `Symmetry.inDisorientationSST` (rotation.py, lines 600-624) on an
already length-checked Rodrigues-Frank vector `R`:
per-class ordering inequalities on the raw components. -/
def inDisorientationSST (sym : Symmetry) (r0 r1 r2 : FloatVal) : Prop :=
  match sym with
  | .cubic =>
      fle (fadd r1 (.finite epsilonSST)) r0 ∧
      fle (fadd r2 (.finite epsilonSST)) r1 ∧
      fle (.finite epsilonSST) r2
  | .hexagonal =>
      fle (fscale (Real.sqrt 3) (fadd r1 (.finite (-epsilonSST)))) r0 ∧
      fle (.finite epsilonSST) r1 ∧ fle (.finite epsilonSST) r2
  | .tetragonal =>
      fle (fadd r1 (.finite (-epsilonSST))) r0 ∧
      fle (.finite epsilonSST) r1 ∧ fle (.finite epsilonSST) r2
  | .orthorhombic =>
      fle (.finite epsilonSST) r0 ∧ fle (.finite epsilonSST) r1 ∧
      fle (.finite epsilonSST) r2
  | .none => True

/-! ## Tolerance helpers and conversions -/

/-- `iszero` (rotation.py, lines 1081-1082): `np.isclose(a, 0.0,
atol=1.0e-12, rtol=0.0)`. -/
def iszero (a : ℝ) : Prop := |a| ≤ 1 / 10 ^ 12

/-- `np.clip(a, lo, hi)`. -/
def clip (lo hi a : ℝ) : ℝ := min (max a lo) hi

open Classical in
/-- IEEE multiplication of two values: NaN propagates, `0 * (+-inf) = nan`,
otherwise signs orient the infinities. -/
noncomputable def fmul : FloatVal → FloatVal → FloatVal
  | .nan, _ => .nan
  | _, .nan => .nan
  | .finite x, .finite y => .finite (x * y)
  | .finite x, .pinf => if 0 < x then .pinf else if x < 0 then .ninf else .nan
  | .finite x, .ninf => if 0 < x then .ninf else if x < 0 then .pinf else .nan
  | .pinf, .finite y => if 0 < y then .pinf else if y < 0 then .ninf else .nan
  | .ninf, .finite y => if 0 < y then .ninf else if y < 0 then .pinf else .nan
  | .pinf, .pinf => .pinf
  | .pinf, .ninf => .ninf
  | .ninf, .pinf => .ninf
  | .ninf, .ninf => .pinf

open Classical in
/-- `qu2ro` (rotation.py, lines 1137-1146): quaternion to Rodrigues-Frank
`[n1, n2, n3, tan(omega/2)]`; the fourth component is `np.inf` when the
real part is (close to) zero, and the zero rotation maps to the sentinel
`[0, 0, P, 0]`. -/
noncomputable def qu2ro (q : Quat) :
    FloatVal × FloatVal × FloatVal × FloatVal :=
  if iszero q.w then (.finite q.x, .finite q.y, .finite q.z, .pinf)
  else if iszero (Real.sqrt (q.x ^ 2 + q.y ^ 2 + q.z ^ 2)) then
    (.finite 0, .finite 0, .finite Pc, .finite 0)
  else (.finite (q.x / Real.sqrt (q.x ^ 2 + q.y ^ 2 + q.z ^ 2)),
        .finite (q.y / Real.sqrt (q.x ^ 2 + q.y ^ 2 + q.z ^ 2)),
        .finite (q.z / Real.sqrt (q.x ^ 2 + q.y ^ 2 + q.z ^ 2)),
        .finite (Real.tan (Real.arccos (clip (-1) 1 q.w))))

/-- `Rotation.asRodrigues(vector=True)` (rotation.py, lines 212-225):
`ro[:3] * ro[3]`, the axis scaled by `tan(omega/2)`. -/
noncomputable def asRodriguesVec (q : Quat) : FloatVal × FloatVal × FloatVal :=
  (fmul (qu2ro q).1 (qu2ro q).2.2.2,
   fmul (qu2ro q).2.1 (qu2ro q).2.2.2,
   fmul (qu2ro q).2.2.1 (qu2ro q).2.2.2)

/-- `Rotation.__mul__` on a `(3,)`-vector (rotation.py, lines 92-103): the
closed-form quaternion sandwich with
`A = q0^2 - p.p`, `B = 2 (p.v)`, `C = 2 P q0`. -/
def rotVec (q : Quat) (v : ℝ × ℝ × ℝ) : ℝ × ℝ × ℝ :=
  let A := q.w ^ 2 - (q.x * q.x + q.y * q.y + q.z * q.z)
  let B := 2 * (q.x * v.1 + q.y * v.2.1 + q.z * v.2.2)
  let C := 2 * Pc * q.w
  (A * v.1 + B * q.x + C * (q.y * v.2.2 - q.z * v.2.1),
   A * v.2.1 + B * q.y + C * (q.z * v.1 - q.x * v.2.2),
   A * v.2.2 + B * q.z + C * (q.x * v.2.1 - q.y * v.1))

/-- `eu2qu` (rotation.py, lines 1232-1242): Bunge-Euler angles to
quaternion; the final `if qu[0] < 0.0: qu *= -1` is the same sign fix as
`standardize`. -/
noncomputable def eu2qu (e : ℝ × ℝ × ℝ) : Quat :=
  let ee0 := 0.5 * e.1
  let ee1 := 0.5 * e.2.1
  let ee2 := 0.5 * e.2.2
  let cPhi := Real.cos ee1
  let sPhi := Real.sin ee1
  standardize
    ⟨cPhi * Real.cos (ee0 + ee2),
     -Pc * sPhi * Real.cos (ee0 - ee2),
     -Pc * sPhi * Real.sin (ee0 - ee2),
     -Pc * cPhi * Real.sin (ee0 + ee2)⟩

open Classical in
/-- `Rotation.fromEulers` with `degrees=False` (rotation.py, lines 269-279):
raises `ValueError` when `np.any(eu < 0.0) or np.any(eu > 2*pi) or
eu[1] > pi`, else returns `Rotation(eu2qu(eu))`. -/
noncomputable def fromEulers (e : ℝ × ℝ × ℝ) : Except Unit Quat :=
  if (e.1 < 0 ∨ e.2.1 < 0 ∨ e.2.2 < 0) ∨
     (e.1 > 2 * Real.pi ∨ e.2.1 > 2 * Real.pi ∨ e.2.2 > 2 * Real.pi) ∨
     e.2.1 > Real.pi
  then .error ()
  else .ok (eu2qu e)

/-- `np.isclose(a, b)` with numpy defaults `rtol=1e-5`, `atol=1e-8`. -/
def npisclose (a b : ℝ) : Prop := |a - b| ≤ 1 / 10 ^ 8 + 1 / 10 ^ 5 * |b|

open Classical in
/-- `Rotation.fromQuaternion(qu, acceptHomomorph=True, P=-1)` (rotation.py,
lines 251-267): with `P = -1` the vector part is kept, a negative first
component is flipped (`acceptHomomorph`), and a non-unit norm raises
`ValueError`. -/
noncomputable def fromQuaternionAH (q : Quat) : Except Unit Quat :=
  if npisclose (Real.sqrt (normSq (if q.w < 0 then negQ q else q))) 1
  then .ok (if q.w < 0 then negQ q else q) else .error ()

/-- `np.outer(q, q)` applied to the 4-vector `v`: `(q.v) q`. This is the
action of the matrix `M` that `Rotation.fromAverage` (rotation.py, lines
365-396) accumulates for a single rotation of weight 1 (`M = q (x) q`,
`N = 1`). -/
def outerMulVec (q v : Quat) : Quat := smulQ (dot4 q v) q

/-! ## `Symmetry.inSST` (rotation.py, lines 627-711) -/

/-- A 3-vector of doubles. -/
abbrev Vec3 := ℝ × ℝ × ℝ

/-- A 3x3 matrix as its three rows. -/
abbrev Mat3 := Vec3 × Vec3 × Vec3

/-- Euclidean dot product on 3-vectors. -/
def dot3 (a b : Vec3) : ℝ := a.1 * b.1 + a.2.1 * b.2.1 + a.2.2 * b.2.2

/-- `np.dot` of a 3x3 matrix and a 3-vector. -/
def mulVec (m : Mat3) (v : Vec3) : Vec3 :=
  (dot3 m.1 v, dot3 m.2.1 v, dot3 m.2.2 v)

/-- `np.around(x, 12)`: rounding to 12 decimals. numpy rounds ties to even;
Mathlib `round` rounds ties up, which differs only at exact half-ulp ties. -/
noncomputable def around12 (x : ℝ) : ℝ := ((round (x * 10 ^ 12) : ℤ) : ℝ) / 10 ^ 12

/-- Componentwise `np.around(_, 12)`. -/
noncomputable def around3 (v : Vec3) : Vec3 :=
  (around12 v.1, around12 v.2.1, around12 v.2.2)

/-- `np.all(theComponents >= 0.0)`. -/
def allNonneg (c : Vec3) : Prop := 0 ≤ c.1 ∧ 0 ≤ c.2.1 ∧ 0 ≤ c.2.2

/-- The inverse-pole-figure color (rotation.py, lines 703-706):
`rgb = power(comps/norm(comps), 0.5)` (on the nonnegative components where
it is used, `np.power(_, 0.5)` is the square root), clipped to 1, then
normalized by its maximum. -/
noncomputable def sstColor (c : Vec3) : Vec3 :=
  let n := Real.sqrt (c.1 ^ 2 + c.2.1 ^ 2 + c.2.2 ^ 2)
  let r1 := min 1 (Real.sqrt (c.1 / n))
  let r2 := min 1 (Real.sqrt (c.2.1 / n))
  let r3 := min 1 (Real.sqrt (c.2.2 / n))
  let m := max r1 (max r2 r3)
  (r1 / m, r2 / m, r3 / m)

/-- The two shapes `Symmetry.inSST` returns: a bare verdict, or, when
`color=True`, the pair of the verdict and an RGB vector. -/
inductive SSTResult where
  | plain (b : Prop)
  | withColor (b : Prop) (rgb : Vec3)

open Classical in
/-- The tail of `Symmetry.inSST` after the verdict and components are
known (rotation.py, lines 702-711): with `color=True` return the pair with
the color (zero when outside), else the bare verdict. -/
noncomputable def sstFinish (color : Bool) (flag : Prop) (comps : Vec3) :
    SSTResult :=
  if color then .withColor flag (if flag then sstColor comps else (0, 0, 0))
  else .plain flag

open Classical in
/-- `Symmetry.inSST` for the four nontrivial classes (rotation.py, lines
690-711): with `proper=True` test the improper then the proper basis; else
mirror `v[2] = abs(v[2])` and test the improper basis only. -/
noncomputable def inSSTtail (bImp bPro : Mat3) (v : Vec3)
    (proper color : Bool) : SSTResult :=
  let pair : Prop × Vec3 :=
    if proper then
      let cI := around3 (mulVec bImp v)
      let i := allNonneg cI
      if i then (i, cI)
      else
        let cP := around3 (mulVec bPro v)
        (allNonneg cP, cP)
    else
      let v2 : Vec3 := (v.1, v.2.1, |v.2.2|)
      let cI := around3 (mulVec bImp v2)
      (allNonneg cI, cI)
  sstFinish color pair.1 pair.2

/-- `Symmetry.inSST` (rotation.py, lines 627-711): per-class bases (lines
652-683); the unspecified ("none") class exits directly with `True` and,
when color is requested, a zero color (lines 684-688). -/
noncomputable def inSST (sym : Symmetry) (v : Vec3) (proper color : Bool) :
    SSTResult :=
  match sym with
  | .cubic =>
      inSSTtail
        ((-1, 0, 1), (Real.sqrt 2, -Real.sqrt 2, 0), (0, Real.sqrt 3, 0))
        ((0, -1, 1), (-Real.sqrt 2, Real.sqrt 2, 0), (Real.sqrt 3, 0, 0))
        v proper color
  | .hexagonal =>
      inSSTtail
        ((0, 0, 1), (1, -Real.sqrt 3, 0), (0, 2, 0))
        ((0, 0, 1), (-1, Real.sqrt 3, 0), (Real.sqrt 3, -1, 0))
        v proper color
  | .tetragonal =>
      inSSTtail
        ((0, 0, 1), (1, -1, 0), (0, Real.sqrt 2, 0))
        ((0, 0, 1), (-1, 1, 0), (Real.sqrt 2, 0, 0))
        v proper color
  | .orthorhombic =>
      inSSTtail
        ((0, 0, 1), (1, 0, 0), (0, 1, 0))
        ((0, 0, 1), (-1, 0, 0), (0, 1, 0))
        v proper color
  | .none =>
      if color then .withColor True (0, 0, 0) else .plain True

/-! ## Symmetry operators and `Orientation.disorientation` -/

/-- `Symmetry.symmetryOperations` (rotation.py, lines 490-558): the fixed,
ordered per-class quaternion lists (24 cubic, 12 hexagonal, 8 tetragonal,
4 orthorhombic, 1 for the unspecified class). -/
noncomputable def symQuats : Symmetry → List Quat
  | .cubic =>
      [⟨1, 0, 0, 0⟩,
       ⟨0, 1, 0, 0⟩,
       ⟨0, 0, 1, 0⟩,
       ⟨0, 0, 0, 1⟩,
       ⟨0, 0, 0.5 * Real.sqrt 2, 0.5 * Real.sqrt 2⟩,
       ⟨0, 0, 0.5 * Real.sqrt 2, -(0.5 * Real.sqrt 2)⟩,
       ⟨0, 0.5 * Real.sqrt 2, 0, 0.5 * Real.sqrt 2⟩,
       ⟨0, 0.5 * Real.sqrt 2, 0, -(0.5 * Real.sqrt 2)⟩,
       ⟨0, 0.5 * Real.sqrt 2, -(0.5 * Real.sqrt 2), 0⟩,
       ⟨0, -(0.5 * Real.sqrt 2), -(0.5 * Real.sqrt 2), 0⟩,
       ⟨0.5, 0.5, 0.5, 0.5⟩,
       ⟨-0.5, 0.5, 0.5, 0.5⟩,
       ⟨-0.5, 0.5, 0.5, -0.5⟩,
       ⟨-0.5, 0.5, -0.5, 0.5⟩,
       ⟨-0.5, -0.5, 0.5, 0.5⟩,
       ⟨-0.5, -0.5, 0.5, -0.5⟩,
       ⟨-0.5, -0.5, -0.5, 0.5⟩,
       ⟨-0.5, 0.5, -0.5, -0.5⟩,
       ⟨-(0.5 * Real.sqrt 2), 0, 0, 0.5 * Real.sqrt 2⟩,
       ⟨0.5 * Real.sqrt 2, 0, 0, 0.5 * Real.sqrt 2⟩,
       ⟨-(0.5 * Real.sqrt 2), 0, 0.5 * Real.sqrt 2, 0⟩,
       ⟨-(0.5 * Real.sqrt 2), 0, -(0.5 * Real.sqrt 2), 0⟩,
       ⟨-(0.5 * Real.sqrt 2), 0.5 * Real.sqrt 2, 0, 0⟩,
       ⟨-(0.5 * Real.sqrt 2), -(0.5 * Real.sqrt 2), 0, 0⟩]
  | .hexagonal =>
      [⟨1, 0, 0, 0⟩,
       ⟨-(0.5 * Real.sqrt 3), 0, 0, -0.5⟩,
       ⟨0.5, 0, 0, 0.5 * Real.sqrt 3⟩,
       ⟨0, 0, 0, 1⟩,
       ⟨-0.5, 0, 0, 0.5 * Real.sqrt 3⟩,
       ⟨-(0.5 * Real.sqrt 3), 0, 0, 0.5⟩,
       ⟨0, 1, 0, 0⟩,
       ⟨0, -(0.5 * Real.sqrt 3), 0.5, 0⟩,
       ⟨0, 0.5, -(0.5 * Real.sqrt 3), 0⟩,
       ⟨0, 0, 1, 0⟩,
       ⟨0, -0.5, -(0.5 * Real.sqrt 3), 0⟩,
       ⟨0, 0.5 * Real.sqrt 3, 0.5, 0⟩]
  | .tetragonal =>
      [⟨1, 0, 0, 0⟩,
       ⟨0, 1, 0, 0⟩,
       ⟨0, 0, 1, 0⟩,
       ⟨0, 0, 0, 1⟩,
       ⟨0, 0.5 * Real.sqrt 2, 0.5 * Real.sqrt 2, 0⟩,
       ⟨0, -(0.5 * Real.sqrt 2), 0.5 * Real.sqrt 2, 0⟩,
       ⟨0.5 * Real.sqrt 2, 0, 0, 0.5 * Real.sqrt 2⟩,
       ⟨-(0.5 * Real.sqrt 2), 0, 0, 0.5 * Real.sqrt 2⟩]
  | .orthorhombic =>
      [⟨1, 0, 0, 0⟩, ⟨0, 1, 0, 0⟩, ⟨0, 0, 1, 0⟩, ⟨0, 0, 0, 1⟩]
  | .none => [⟨1, 0, 0, 0⟩]

/-- The first conjunct of the `breaker` in `Orientation.disorientation`
(_orientation.py, line 72) is the expression `self.in_FZ` with no call
parentheses: it evaluates to the bound method object itself, and a bound
method is always truthy in Python, so this conjunct holds for every input
and the fundamental-zone test is never executed. -/
def inFZmethodTruthy : Prop := True

/-- The candidate misorientation tested by `Orientation.disorientation` at
outer index `i`, inner index `j` and inverse-loop index `k`
(_orientation.py, lines 65-71). `Orientation.equivalent` is modelled from
the spec ("for each symmetry operator of the lattice, the orientation
obtained by left-multiplying the rotation by that operator"), with the
source's quaternion composition `Rotation.__mul__`; `aInv` is
`sA.rotation.inversed()`, `r = b * aInv`, and `r.inverse()` flips `r` in
place once before the `k = 0` test and once more before the `k = 1` test. -/
noncomputable def disCand (ops : List Quat) (a b : Quat) (i j k : ℕ) : Quat :=
  let sA := mulR (ops.getD i idQ) a
  let aInv := conjQ sA
  let sB := mulR (ops.getD j idQ) b
  let m := mulR sB aInv
  match k with
  | 0 => conjQ m
  | _ => conjQ (conjQ m)

/-- The `breaker` condition of `Orientation.disorientation`
(_orientation.py, lines 72-73): `self.in_FZ and (not SST or
other.lattice.symmetry.inDisorientationSST(r.as_Rodrigues(vector=True)))`,
where the first conjunct is the always-truthy uncalled bound method. -/
def disBreaker (sym : Symmetry) (ops : List Quat) (a b : Quat)
    (useSST : Bool) (i j k : ℕ) : Prop :=
  inFZmethodTruthy ∧
  (useSST = false ∨
    inDisorientationSST sym (asRodriguesVec (disCand ops a b i j k)).1
      (asRodriguesVec (disCand ops a b i j k)).2.1
      (asRodriguesVec (disCand ops a b i j k)).2.2)

/-- Strict lexicographic order on loop-index triples `(i, j, k)`. -/
def tripleLt (p q : ℕ × ℕ × ℕ) : Prop :=
  p.1 < q.1 ∨ (p.1 = q.1 ∧ (p.2.1 < q.2.1 ∨ (p.2.1 = q.2.1 ∧ p.2.2 < q.2.2)))

/-- The triple-loop search of `Orientation.disorientation` (_orientation.py,
lines 62-78) relationally: `r` is returned iff some in-range triple
`(i, j, k)` fires the breaker and every lexicographically earlier in-range
triple does not. The outer loop runs over all own symmetry equivalents when
`useSST` is true and only the first one otherwise (line 62); when no triple
fires, the Python falls out of the loops and returns the last candidate,
a case this relation leaves unconstrained. -/
def disorientationReturns (sym : Symmetry) (ops : List Quat)
    (a b : Quat) (useSST : Bool) (r : Quat) : Prop :=
  ∃ i j k,
    i < (if useSST then ops.length else 1) ∧ j < ops.length ∧ k < 2 ∧
    disBreaker sym ops a b useSST i j k ∧
    (∀ i2 j2 k2, i2 < (if useSST then ops.length else 1) → j2 < ops.length →
      k2 < 2 → tripleLt (i2, j2, k2) (i, j, k) →
      ¬ disBreaker sym ops a b useSST i2 j2 k2) ∧
    r = disCand ops a b i j k

/-! ## `Lattice` and `Lattice.relationOperations` (rotation.py, lines 718-1045) -/

/-- An integer Miller-index triple. -/
abbrev Vec3Z := ℤ × ℤ × ℤ

/-- `Lattice.KS` planes (rotation.py): parallel plane-normal pairs,
first entry fcc, second bcc. -/
def KSplanes : List (Vec3Z × Vec3Z) :=
  [((1, 1, 1), (0, 1, 1)),
   ((1, 1, 1), (0, 1, 1)),
   ((1, 1, 1), (0, 1, 1)),
   ((1, 1, 1), (0, 1, 1)),
   ((1, 1, 1), (0, 1, 1)),
   ((1, 1, 1), (0, 1, 1)),
   ((1, -1, 1), (0, 1, 1)),
   ((1, -1, 1), (0, 1, 1)),
   ((1, -1, 1), (0, 1, 1)),
   ((1, -1, 1), (0, 1, 1)),
   ((1, -1, 1), (0, 1, 1)),
   ((1, -1, 1), (0, 1, 1)),
   ((-1, 1, 1), (0, 1, 1)),
   ((-1, 1, 1), (0, 1, 1)),
   ((-1, 1, 1), (0, 1, 1)),
   ((-1, 1, 1), (0, 1, 1)),
   ((-1, 1, 1), (0, 1, 1)),
   ((-1, 1, 1), (0, 1, 1)),
   ((1, 1, -1), (0, 1, 1)),
   ((1, 1, -1), (0, 1, 1)),
   ((1, 1, -1), (0, 1, 1)),
   ((1, 1, -1), (0, 1, 1)),
   ((1, 1, -1), (0, 1, 1)),
   ((1, 1, -1), (0, 1, 1))]

/-- `Lattice.KS` directions (rotation.py): parallel direction pairs,
first entry fcc, second bcc. -/
def KSdirections : List (Vec3Z × Vec3Z) :=
  [((-1, 0, 1), (-1, -1, 1)),
   ((-1, 0, 1), (-1, 1, -1)),
   ((0, 1, -1), (-1, -1, 1)),
   ((0, 1, -1), (-1, 1, -1)),
   ((1, -1, 0), (-1, -1, 1)),
   ((1, -1, 0), (-1, 1, -1)),
   ((1, 0, -1), (-1, -1, 1)),
   ((1, 0, -1), (-1, 1, -1)),
   ((-1, -1, 0), (-1, -1, 1)),
   ((-1, -1, 0), (-1, 1, -1)),
   ((0, 1, 1), (-1, -1, 1)),
   ((0, 1, 1), (-1, 1, -1)),
   ((0, -1, 1), (-1, -1, 1)),
   ((0, -1, 1), (-1, 1, -1)),
   ((-1, 0, -1), (-1, -1, 1)),
   ((-1, 0, -1), (-1, 1, -1)),
   ((1, 1, 0), (-1, -1, 1)),
   ((1, 1, 0), (-1, 1, -1)),
   ((-1, 1, 0), (-1, -1, 1)),
   ((-1, 1, 0), (-1, 1, -1)),
   ((0, -1, -1), (-1, -1, 1)),
   ((0, -1, -1), (-1, 1, -1)),
   ((1, 0, 1), (-1, -1, 1)),
   ((1, 0, 1), (-1, 1, -1))]

/-- `Lattice.GT` planes (rotation.py): parallel plane-normal pairs,
first entry fcc, second bcc. -/
def GTplanes : List (Vec3Z × Vec3Z) :=
  [((1, 1, 1), (1, 0, 1)),
   ((1, 1, 1), (1, 1, 0)),
   ((1, 1, 1), (0, 1, 1)),
   ((-1, -1, 1), (-1, 0, 1)),
   ((-1, -1, 1), (-1, -1, 0)),
   ((-1, -1, 1), (0, -1, 1)),
   ((-1, 1, 1), (-1, 0, 1)),
   ((-1, 1, 1), (-1, 1, 0)),
   ((-1, 1, 1), (0, 1, 1)),
   ((1, -1, 1), (1, 0, 1)),
   ((1, -1, 1), (1, -1, 0)),
   ((1, -1, 1), (0, -1, 1)),
   ((1, 1, 1), (1, 1, 0)),
   ((1, 1, 1), (0, 1, 1)),
   ((1, 1, 1), (1, 0, 1)),
   ((-1, -1, 1), (-1, -1, 0)),
   ((-1, -1, 1), (0, -1, 1)),
   ((-1, -1, 1), (-1, 0, 1)),
   ((-1, 1, 1), (-1, 1, 0)),
   ((-1, 1, 1), (0, 1, 1)),
   ((-1, 1, 1), (-1, 0, 1)),
   ((1, -1, 1), (1, -1, 0)),
   ((1, -1, 1), (0, -1, 1)),
   ((1, -1, 1), (1, 0, 1))]

/-- `Lattice.GT` directions (rotation.py): parallel direction pairs,
first entry fcc, second bcc. -/
def GTdirections : List (Vec3Z × Vec3Z) :=
  [((-5, -12, 17), (-17, -7, 17)),
   ((17, -5, -12), (17, -17, -7)),
   ((-12, 17, -5), (-7, 17, -17)),
   ((5, 12, 17), (17, 7, 17)),
   ((-17, 5, -12), (-17, 17, -7)),
   ((12, -17, -5), (7, -17, -17)),
   ((-5, 12, -17), (-17, 7, -17)),
   ((17, 5, 12), (17, 17, 7)),
   ((-12, -17, 5), (-7, -17, 17)),
   ((5, -12, -17), (17, -7, -17)),
   ((-17, -5, 12), (-17, -17, 7)),
   ((12, 17, 5), (7, 17, 17)),
   ((-5, 17, -12), (-17, 17, -7)),
   ((-12, -5, 17), (-7, -17, 17)),
   ((17, -12, -5), (17, -7, -17)),
   ((5, -17, -12), (17, -17, -7)),
   ((12, 5, 17), (7, 17, 17)),
   ((-17, 12, -5), (-17, 7, -17)),
   ((-5, -17, 12), (-17, -17, 7)),
   ((-12, 5, -17), (-7, 17, -17)),
   ((17, 12, 5), (17, 7, 17)),
   ((5, 17, 12), (17, 17, 7)),
   ((12, -5, -17), (7, -17, -17)),
   ((-17, -12, 5), (-17, -7, 17))]

/-- `Lattice.GTprime` planes (rotation.py): parallel plane-normal pairs,
first entry fcc, second bcc. -/
def GTprimeplanes : List (Vec3Z × Vec3Z) :=
  [((7, 17, 17), (12, 5, 17)),
   ((17, 7, 17), (17, 12, 5)),
   ((17, 17, 7), (5, 17, 12)),
   ((-7, -17, 17), (-12, -5, 17)),
   ((-17, -7, 17), (-17, -12, 5)),
   ((-17, -17, 7), (-5, -17, 12)),
   ((7, -17, -17), (12, -5, -17)),
   ((17, -7, -17), (17, -12, -5)),
   ((17, -17, -7), (5, -17, -12)),
   ((-7, 17, -17), (-12, 5, -17)),
   ((-17, 7, -17), (-17, 12, -5)),
   ((-17, 17, -7), (-5, 17, -12)),
   ((7, 17, 17), (12, 17, 5)),
   ((17, 7, 17), (5, 12, 17)),
   ((17, 17, 7), (17, 5, 12)),
   ((-7, -17, 17), (-12, -17, 5)),
   ((-17, -7, 17), (-5, -12, 17)),
   ((-17, -17, 7), (-17, -5, 12)),
   ((7, -17, -17), (12, -17, -5)),
   ((17, -7, -17), (5, -12, -17)),
   ((17, -17, -7), (17, -5, -12)),
   ((-7, 17, -17), (-12, 17, -5)),
   ((-17, 7, -17), (-5, 12, -17)),
   ((-17, 17, -7), (-17, 5, -12))]

/-- `Lattice.GTprime` directions (rotation.py): parallel direction pairs,
first entry fcc, second bcc. -/
def GTprimedirections : List (Vec3Z × Vec3Z) :=
  [((0, 1, -1), (1, 1, -1)),
   ((-1, 0, 1), (-1, 1, 1)),
   ((1, -1, 0), (1, -1, 1)),
   ((0, -1, -1), (-1, -1, -1)),
   ((1, 0, 1), (1, -1, 1)),
   ((1, -1, 0), (1, -1, -1)),
   ((0, 1, -1), (-1, 1, -1)),
   ((1, 0, 1), (1, 1, 1)),
   ((-1, -1, 0), (-1, -1, 1)),
   ((0, -1, -1), (1, -1, -1)),
   ((-1, 0, 1), (-1, -1, 1)),
   ((-1, -1, 0), (-1, -1, -1)),
   ((0, -1, 1), (1, -1, 1)),
   ((1, 0, -1), (1, 1, -1)),
   ((-1, 1, 0), (-1, 1, 1)),
   ((0, 1, 1), (-1, 1, 1)),
   ((-1, 0, -1), (-1, -1, -1)),
   ((-1, 1, 0), (-1, 1, -1)),
   ((0, -1, 1), (-1, -1, 1)),
   ((-1, 0, -1), (-1, 1, -1)),
   ((1, 1, 0), (1, 1, 1)),
   ((0, 1, 1), (1, 1, 1)),
   ((1, 0, -1), (1, -1, -1)),
   ((1, 1, 0), (1, 1, -1))]

/-- `Lattice.NW` planes (rotation.py): parallel plane-normal pairs,
first entry fcc, second bcc. -/
def NWplanes : List (Vec3Z × Vec3Z) :=
  [((1, 1, 1), (0, 1, 1)),
   ((1, 1, 1), (0, 1, 1)),
   ((1, 1, 1), (0, 1, 1)),
   ((-1, 1, 1), (0, 1, 1)),
   ((-1, 1, 1), (0, 1, 1)),
   ((-1, 1, 1), (0, 1, 1)),
   ((1, -1, 1), (0, 1, 1)),
   ((1, -1, 1), (0, 1, 1)),
   ((1, -1, 1), (0, 1, 1)),
   ((-1, -1, 1), (0, 1, 1)),
   ((-1, -1, 1), (0, 1, 1)),
   ((-1, -1, 1), (0, 1, 1))]

/-- `Lattice.NW` directions (rotation.py): parallel direction pairs,
first entry fcc, second bcc. -/
def NWdirections : List (Vec3Z × Vec3Z) :=
  [((2, -1, -1), (0, -1, 1)),
   ((-1, 2, -1), (0, -1, 1)),
   ((-1, -1, 2), (0, -1, 1)),
   ((-2, -1, -1), (0, -1, 1)),
   ((1, 2, -1), (0, -1, 1)),
   ((1, -1, 2), (0, -1, 1)),
   ((2, 1, -1), (0, -1, 1)),
   ((-1, -2, -1), (0, -1, 1)),
   ((-1, 1, 2), (0, -1, 1)),
   ((2, -1, 1), (0, -1, 1)),
   ((-1, 2, 1), (0, -1, 1)),
   ((-1, -1, -2), (0, -1, 1))]

/-- `Lattice.Pitsch` planes (rotation.py): parallel plane-normal pairs,
first entry fcc, second bcc. -/
def Pitschplanes : List (Vec3Z × Vec3Z) :=
  [((0, 1, 0), (-1, 0, 1)),
   ((0, 0, 1), (1, -1, 0)),
   ((1, 0, 0), (0, 1, -1)),
   ((1, 0, 0), (0, -1, -1)),
   ((0, 1, 0), (-1, 0, -1)),
   ((0, 0, 1), (-1, -1, 0)),
   ((0, 1, 0), (-1, 0, -1)),
   ((0, 0, 1), (-1, -1, 0)),
   ((1, 0, 0), (0, -1, -1)),
   ((1, 0, 0), (0, -1, 1)),
   ((0, 1, 0), (1, 0, -1)),
   ((0, 0, 1), (-1, 1, 0))]

/-- `Lattice.Pitsch` directions (rotation.py): parallel direction pairs,
first entry fcc, second bcc. -/
def Pitschdirections : List (Vec3Z × Vec3Z) :=
  [((1, 0, 1), (1, -1, 1)),
   ((1, 1, 0), (1, 1, -1)),
   ((0, 1, 1), (-1, 1, 1)),
   ((0, 1, -1), (-1, 1, -1)),
   ((-1, 0, 1), (-1, -1, 1)),
   ((1, -1, 0), (1, -1, -1)),
   ((1, 0, -1), (1, -1, -1)),
   ((-1, 1, 0), (-1, 1, -1)),
   ((0, -1, 1), (-1, -1, 1)),
   ((0, 1, 1), (-1, 1, 1)),
   ((1, 0, 1), (1, -1, 1)),
   ((1, 1, 0), (1, 1, -1))]

/-- `Lattice.Bain` planes (rotation.py): parallel plane-normal pairs,
first entry fcc, second bcc. -/
def Bainplanes : List (Vec3Z × Vec3Z) :=
  [((1, 0, 0), (1, 0, 0)),
   ((0, 1, 0), (0, 1, 0)),
   ((0, 0, 1), (0, 0, 1))]

/-- `Lattice.Bain` directions (rotation.py): parallel direction pairs,
first entry fcc, second bcc. -/
def Baindirections : List (Vec3Z × Vec3Z) :=
  [((0, 1, 0), (0, 1, 1)),
   ((0, 0, 1), (1, 0, 1)),
   ((1, 0, 0), (1, 1, 0))]
/-- The Bravais lattices of `Lattice.lattices` (rotation.py, lines
731-737): triclinic, bct, hex, fcc, bcc. -/
inductive Bravais where
  | triclinic
  | bct
  | hex
  | fcc
  | bcc
deriving DecidableEq

/-- An orientation relationship: the `mapping` of every one of the six
models is `{'fcc': 0, 'bcc': 1}`, and the parallel `planes` / `directions`
tables hold the (fcc, bcc) Miller-index pairs. -/
structure ORModel where
  planes : List (Vec3Z × Vec3Z)
  directions : List (Vec3Z × Vec3Z)

/-- The `models` dictionary of `Lattice.relationOperations` (rotation.py,
lines 1016-1017): `{'KS', 'GT', 'GT_prime', 'NW', 'Pitsch', 'Bain'}`. -/
def models (m : String) : Option ORModel :=
  if m = "KS" then some ⟨KSplanes, KSdirections⟩
  else if m = "GT" then some ⟨GTplanes, GTdirections⟩
  else if m = "GT_prime" then some ⟨GTprimeplanes, GTprimedirections⟩
  else if m = "NW" then some ⟨NWplanes, NWdirections⟩
  else if m = "Pitsch" then some ⟨Pitschplanes, Pitschdirections⟩
  else if m = "Bain" then some ⟨Bainplanes, Baindirections⟩
  else none

/-- The two error kinds of `Lattice.relationOperations`: the `KeyError`
for an unknown model name (line 1021) and the `ValueError` for a lattice
that is not an endpoint of the relationship (line 1024). -/
inductive RelError where
  | unknownRelationship
  | unsupportedLattice
deriving DecidableEq

/-- A Miller triple as a real vector. -/
def zToVec3 (v : Vec3Z) : Vec3 := ((v.1 : ℝ), (v.2.1 : ℝ), (v.2.2 : ℝ))

/-- Euclidean normalization `x / np.linalg.norm(x)`. -/
noncomputable def normalize3 (v : Vec3) : Vec3 :=
  let n := Real.sqrt (v.1 ^ 2 + v.2.1 ^ 2 + v.2.2 ^ 2)
  (v.1 / n, v.2.1 / n, v.2.2 / n)

/-- `np.cross` on 3-vectors. -/
def cross3 (a b : Vec3) : Vec3 :=
  (a.2.1 * b.2.2 - a.2.2 * b.2.1,
   a.2.2 * b.1 - a.1 * b.2.2,
   a.1 * b.2.1 - a.2.1 * b.1)

/-- Transpose of a row-major 3x3 matrix. -/
def transpose3 (m : Mat3) : Mat3 :=
  ((m.1.1, m.2.1.1, m.2.2.1),
   (m.1.2.1, m.2.1.2.1, m.2.2.2.1),
   (m.1.2.2, m.2.1.2.2, m.2.2.2.2))

/-- `np.dot` of two 3x3 matrices. -/
def matMul3 (a b : Mat3) : Mat3 :=
  let bt := transpose3 b
  ((dot3 a.1 bt.1, dot3 a.1 bt.2.1, dot3 a.1 bt.2.2),
   (dot3 a.2.1 bt.1, dot3 a.2.1 bt.2.1, dot3 a.2.1 bt.2.2),
   (dot3 a.2.2 bt.1, dot3 a.2.2 bt.2.1, dot3 a.2.2 bt.2.2))

/-- One row of the loop of `Lattice.relationOperations` (rotation.py,
lines 1034-1043): normalize the own and other plane normal and direction
(`myPlane_id` selects the fcc or the bcc entry of the pair), build the
frames `[dir, plane x dir, plane]`, and relate them by
`otherMatrix.T . myMatrix`. The relating rotation is kept as this rotation
matrix; the subsequent `Rotation.fromMatrix` conversion to a quaternion is
outside this model. -/
noncomputable def rowRotation (lat : Bravais) (pl di : Vec3Z × Vec3Z) : Mat3 :=
  let myPlane := normalize3 (zToVec3 (if lat = .fcc then pl.1 else pl.2))
  let myDir := normalize3 (zToVec3 (if lat = .fcc then di.1 else di.2))
  let myMatrix : Mat3 := (myDir, cross3 myPlane myDir, myPlane)
  let otherPlane := normalize3 (zToVec3 (if lat = .fcc then pl.2 else pl.1))
  let otherDir := normalize3 (zToVec3 (if lat = .fcc then di.2 else di.1))
  let otherMatrix : Mat3 := (otherDir, cross3 otherPlane otherDir, otherPlane)
  matMul3 (transpose3 otherMatrix) myMatrix

/-- `Lattice.relationOperations` (rotation.py, lines 994-1045): unknown
model names raise `KeyError`; a lattice outside the relationship's
`mapping` (whose keys are `fcc` and `bcc` for all six models) raises
`ValueError`; otherwise the result is the target lattice — the other
endpoint — together with the per-row relating rotations. -/
noncomputable def relationOperations (lat : Bravais) (m : String) :
    Except RelError (Bravais × List Mat3) :=
  match models m with
  | Option.none => .error .unknownRelationship
  | some rel =>
      if lat = .fcc ∨ lat = .bcc then
        .ok ((if lat = .fcc then .bcc else .fcc),
             (rel.planes.zip rel.directions).map
               (fun pd => rowRotation lat pd.1 pd.2))
      else .error .unsupportedLattice

/-! ## Claim theorems -/

/-- C2: for every pair of rotations `a` and `b`, the composition `a * b`
(Hamilton product with the `P` sign convention, then `standardize`) has a
non-negative first (real) quaternion component. -/
theorem mul_standardized_nonneg (a b : Quat) : 0 ≤ (mulR a b).w := by
  unfold mulR standardize
  split
  case isTrue h => simpa [negQ] using le_of_lt (neg_pos.mpr h)
  case isFalse h => exact not_lt.mp h

/-- C4: for every unit quaternion `q`, `q * q.inversed()` is the identity
quaternion `(1, 0, 0, 0)`. -/
theorem mul_inversed_eq_id (q : Quat) (h : normSq q = 1) :
    mulR q (conjQ q) = idQ := by
  have hh : hamilton q (conjQ q) = idQ := by
    unfold normSq at h
    refine Quat.ext ?_ ?_ ?_ ?_ <;> simp only [hamilton, conjQ, idQ, Pc]
    · linear_combination h
    · ring
    · ring
    · ring
  rw [mulR, hh]
  unfold standardize
  rw [if_neg (by norm_num [idQ])]

/-- Witness for C4 at the concrete unit quaternion `(3/5, 4/5, 0, 0)`. -/
theorem mul_inversed_eq_id_witness :
    normSq ⟨3 / 5, 4 / 5, 0, 0⟩ = 1 ∧
    mulR ⟨3 / 5, 4 / 5, 0, 0⟩ (conjQ ⟨3 / 5, 4 / 5, 0, 0⟩) = idQ :=
  ⟨by norm_num [normSq], mul_inversed_eq_id _ (by norm_num [normSq])⟩

/-- C8 counterexample: the in-place inversion `Rotation.inverse` does
mutate the rotation it is applied to — at the quaternion
`(3/5, 4/5, 0, 0)` the object state after the call differs from the
original quaternion, so the claim that inversion never mutates the
original is false on the code. -/
theorem inverse_mutates :
    (inverseOp ⟨3 / 5, 4 / 5, 0, 0⟩).2 ≠ ⟨3 / 5, 4 / 5, 0, 0⟩ := by
  simp only [inverseOp, conjQ, ne_eq, Quat.mk.injEq, not_and]
  intro _ h
  norm_num at h

/-- C8 amended: the copying variants `inversed` and `standardized` return
new values and leave the original rotation's quaternion unchanged, while
the in-place variants `inverse` and `standardize` leave the object holding
the transformed quaternion (and return it). -/
theorem inversed_standardized_pure (q : Quat) :
    (inversedOp q).2 = q ∧ (standardizedOp q).2 = q ∧
    (inversedOp q).1 = conjQ q ∧ (standardizedOp q).1 = standardize q ∧
    (inverseOp q).2 = conjQ q ∧ (standardizeOp q).2 = standardize q :=
  ⟨rfl, rfl, rfl, rfl, rfl, rfl⟩

/-- C9: for every unit quaternion `q` and every 3-vector `v`, the
closed-form sandwich formula of `Rotation.__mul__` preserves the squared
euclidean norm of `v`. -/
theorem rotVec_norm_preserved (q : Quat) (v : Vec3) (h : normSq q = 1) :
    (rotVec q v).1 ^ 2 + (rotVec q v).2.1 ^ 2 + (rotVec q v).2.2 ^ 2 =
      v.1 ^ 2 + v.2.1 ^ 2 + v.2.2 ^ 2 := by
  obtain ⟨w, x, y, z⟩ := q
  obtain ⟨v1, v2, v3⟩ := v
  unfold normSq at h
  simp only [rotVec, Pc] at *
  linear_combination
    ((v1 ^ 2 + v2 ^ 2 + v3 ^ 2) * (w ^ 2 + x ^ 2 + y ^ 2 + z ^ 2 + 1)) * h

/-- Witness for C9 at the identity quaternion and the vector `(1, 2, 3)`. -/
theorem rotVec_norm_preserved_witness :
    normSq ⟨1, 0, 0, 0⟩ = 1 ∧
    ((rotVec ⟨1, 0, 0, 0⟩ (1, 2, 3)).1 ^ 2 +
     (rotVec ⟨1, 0, 0, 0⟩ (1, 2, 3)).2.1 ^ 2 +
     (rotVec ⟨1, 0, 0, 0⟩ (1, 2, 3)).2.2 ^ 2 =
       (1 : ℝ) ^ 2 + 2 ^ 2 + 3 ^ 2) :=
  ⟨by norm_num [normSq], rotVec_norm_preserved _ _ (by norm_num [normSq])⟩

/-- C10: for the unspecified ("none"/triclinic) symmetry class,
`Symmetry.inSST` is `True` for every input vector, and with `color=True`
it is the pair of `True` and the zero RGB vector. -/
theorem inSST_none_always_true (v : Vec3) (proper : Bool) :
    inSST .none v proper false = .plain True ∧
    inSST .none v proper true = .withColor True (0, 0, 0) :=
  ⟨rfl, rfl⟩

/-- C6: `Rotation.fromEulers` (radians) raises the range error exactly when
some component lies outside `[0, 2*pi]` or the second component exceeds
`pi`, and otherwise returns the rotation built by `eu2qu`. -/
theorem fromEulers_range_check (e : ℝ × ℝ × ℝ) :
    (fromEulers e = .error () ↔
      ((e.1 < 0 ∨ 2 * Real.pi < e.1) ∨ (e.2.1 < 0 ∨ 2 * Real.pi < e.2.1) ∨
       (e.2.2 < 0 ∨ 2 * Real.pi < e.2.2) ∨ Real.pi < e.2.1)) ∧
    (fromEulers e = .ok (eu2qu e) ↔
      ¬ ((e.1 < 0 ∨ 2 * Real.pi < e.1) ∨ (e.2.1 < 0 ∨ 2 * Real.pi < e.2.1) ∨
         (e.2.2 < 0 ∨ 2 * Real.pi < e.2.2) ∨ Real.pi < e.2.1)) := by
  unfold fromEulers
  by_cases h : (e.1 < 0 ∨ e.2.1 < 0 ∨ e.2.2 < 0) ∨
      (e.1 > 2 * Real.pi ∨ e.2.1 > 2 * Real.pi ∨ e.2.2 > 2 * Real.pi) ∨
      e.2.1 > Real.pi
  · rw [if_pos h]
    exact ⟨iff_of_true rfl (by tauto), iff_of_false (by simp) (by tauto)⟩
  · rw [if_neg h]
    exact ⟨iff_of_false (by simp) (by tauto), iff_of_true rfl (by tauto)⟩

/-- C3 counterexample: the claim says a Rodrigues-Frank vector with an
infinite component is never in the fundamental zone, for every class; but
for the "none"/triclinic class the vector `(-inf, 0, 0)` slips past the
guard `np.any(rodrigues == np.inf)` (true only for positive infinity) and
reaches the unconditional `return True`. -/
theorem inFZ_none_negInf_true :
    isInf FloatVal.ninf ∧ inFZcore .none .ninf (.finite 0) (.finite 0) := by
  refine ⟨Or.inr rfl, ?_, trivial⟩
  rintro (h | h | h) <;> exact FloatVal.noConfusion h

/-- C3 amended: a `+inf` component puts the vector outside the fundamental
zone for every class; an infinite component of either sign does so for the
four nontrivial classes (for "none" a `-inf`-only vector yields `True`);
and an input whose length is not 3 raises the error. -/
theorem inFZ_infinite (sym : Symmetry) (r0 r1 r2 : FloatVal) :
    ((r0 = .pinf ∨ r1 = .pinf ∨ r2 = .pinf) → ¬ inFZcore sym r0 r1 r2) ∧
    (sym ≠ .none → (isInf r0 ∨ isInf r1 ∨ isInf r2) →
      ¬ inFZcore sym r0 r1 r2) ∧
    (∀ l : List FloatVal, inFZ sym l = .error () ↔ l.length ≠ 3) := by
  refine ⟨fun hp hcore => hcore.1 hp, fun hs hinf hcore => ?_, fun l => ?_⟩
  · obtain ⟨hnp, hcls⟩ := hcore
    rcases hinf with hi | hi | hi
    · rcases hi with hp | hn
      · exact hnp (Or.inl hp)
      · subst hn
        cases sym
        · exact hs rfl
        · exact hcls.1
        · exact hcls.1
        · exact hcls.1
        · exact hcls.1
    · rcases hi with hp | hn
      · exact hnp (Or.inr (Or.inl hp))
      · subst hn
        cases sym
        · exact hs rfl
        · exact hcls.2.1
        · exact hcls.2.1
        · exact hcls.2.1
        · exact hcls.2.1
    · rcases hi with hp | hn
      · exact hnp (Or.inr (Or.inr hp))
      · subst hn
        cases sym
        · exact hs rfl
        · exact hcls.2.2
        · exact hcls.2.2.2
        · exact hcls.2.2.1
        · exact hcls.2.2.1
  · rcases l with _ | ⟨a, _ | ⟨b, _ | ⟨c, _ | ⟨d, tl⟩⟩⟩⟩ <;> simp [inFZ]

/-- C5: averaging a single unit rotation returns it unchanged up to global
sign. `Rotation.fromAverage([r])` builds `M = r (x) r` (weight 1, `N = 1`);
`np.linalg.eig` supplies a unit eigenvector `v` of the largest eigenvalue,
which for a unit quaternion is `1` (`M v = v`); the result is
`fromQuaternion(v, acceptHomomorph=True)`, whose quaternion equals the
input up to sign with a non-negative first component. -/
theorem fromAverage_single (q v : Quat) (hq : normSq q = 1)
    (hv : normSq v = 1) (heig : outerMulVec q v = v) :
    ∃ r, fromQuaternionAH v = .ok r ∧ (r = q ∨ r = negQ q) ∧ 0 ≤ r.w := by
  have hvq : v = q ∨ v = negQ q := by
    have h1 : normSq v = dot4 q v ^ 2 * normSq q := by
      conv_lhs => rw [← heig]
      unfold outerMulVec normSq smulQ
      ring
    rw [hq, mul_one] at h1
    have hc : dot4 q v ^ 2 = 1 := h1.symm.trans hv
    have hcc : dot4 q v = 1 ∨ dot4 q v = -1 :=
      mul_self_eq_one_iff.mp (by rw [← pow_two]; exact hc)
    have hv2 : v = smulQ (dot4 q v) q := heig.symm
    rcases hcc with h1 | h1
    · left
      rw [hv2, h1]
      refine Quat.ext ?_ ?_ ?_ ?_ <;> simp [smulQ]
    · right
      rw [hv2, h1]
      refine Quat.ext ?_ ?_ ?_ ?_ <;> simp [smulQ, negQ]
  have hns : normSq (if v.w < 0 then negQ v else v) = 1 := by
    split
    · rw [show normSq (negQ v) = normSq v by unfold normSq negQ; ring]
      exact hv
    · exact hv
  unfold fromQuaternionAH
  rw [if_pos (by rw [hns, Real.sqrt_one]; norm_num [npisclose])]
  refine ⟨_, rfl, ?_, ?_⟩
  · rcases hvq with h | h <;> subst h
    · split
      · exact Or.inr rfl
      · exact Or.inl rfl
    · split
      · exact Or.inl (by refine Quat.ext ?_ ?_ ?_ ?_ <;> simp [negQ])
      · exact Or.inr rfl
  · split
    case isTrue h => simpa [negQ] using le_of_lt (neg_pos.mpr h)
    case isFalse h => exact not_lt.mp h

/-- Witness for C5 at the identity quaternion, its own (unit) eigenvector
of eigenvalue 1. -/
theorem fromAverage_single_witness :
    normSq idQ = 1 ∧ outerMulVec idQ idQ = idQ ∧
    ∃ r, fromQuaternionAH idQ = .ok r ∧ (r = idQ ∨ r = negQ idQ) ∧ 0 ≤ r.w :=
  ⟨by norm_num [normSq, idQ],
   by simp [outerMulVec, smulQ, dot4, idQ],
   fromAverage_single idQ idQ (by norm_num [normSq, idQ])
     (by norm_num [normSq, idQ]) (by simp [outerMulVec, smulQ, dot4, idQ])⟩

/-- The `models` lookup succeeds exactly for the six relationship names. -/
theorem models_isSome_iff (m : String) :
    (models m).isSome = true ↔
      (m = "KS" ∨ m = "GT" ∨ m = "GT_prime" ∨ m = "NW" ∨ m = "Pitsch" ∨
       m = "Bain") := by
  unfold models
  split_ifs <;> simp_all

/-- C7: `Lattice.relationOperations` raises the unknown-relationship error
iff the model is not one of KS, GT, GT_prime, NW, Pitsch, Bain; raises the
unsupported-lattice error iff the model is known but the lattice is not an
endpoint (fcc or bcc); and otherwise returns the other endpoint as target
lattice together with the per-row rotations. -/
theorem relationOperations_errors (lat : Bravais) (m : String) :
    (relationOperations lat m = .error .unknownRelationship ↔
      ¬ (m = "KS" ∨ m = "GT" ∨ m = "GT_prime" ∨ m = "NW" ∨ m = "Pitsch" ∨
         m = "Bain")) ∧
    (relationOperations lat m = .error .unsupportedLattice ↔
      ((m = "KS" ∨ m = "GT" ∨ m = "GT_prime" ∨ m = "NW" ∨ m = "Pitsch" ∨
        m = "Bain") ∧ ¬ (lat = .fcc ∨ lat = .bcc))) ∧
    ((∃ rots, relationOperations lat m =
        .ok ((if lat = .fcc then .bcc else .fcc), rots)) ↔
      ((m = "KS" ∨ m = "GT" ∨ m = "GT_prime" ∨ m = "NW" ∨ m = "Pitsch" ∨
        m = "Bain") ∧ (lat = .fcc ∨ lat = .bcc))) ∧
    (∀ rel, models m = some rel → (lat = .fcc ∨ lat = .bcc) →
      relationOperations lat m =
        .ok ((if lat = .fcc then .bcc else .fcc),
             (rel.planes.zip rel.directions).map
               (fun pd => rowRotation lat pd.1 pd.2))) := by
  rcases hm : models m with _ | rel
  · have hk : ¬ (m = "KS" ∨ m = "GT" ∨ m = "GT_prime" ∨ m = "NW" ∨
        m = "Pitsch" ∨ m = "Bain") := by
      rw [← models_isSome_iff]
      simp [hm]
    refine ⟨?_, ?_, ?_, ?_⟩
    · simp only [relationOperations, hm]
      exact iff_of_true trivial hk
    · simp only [relationOperations, hm]
      exact iff_of_false (by simp) (fun h => hk h.1)
    · simp only [relationOperations, hm]
      exact iff_of_false (by rintro ⟨r, h⟩; exact Except.noConfusion h)
        (fun h => hk h.1)
    · intro rel2 h2
      exact Option.noConfusion h2
  · have hk : m = "KS" ∨ m = "GT" ∨ m = "GT_prime" ∨ m = "NW" ∨
        m = "Pitsch" ∨ m = "Bain" := by
      rw [← models_isSome_iff]
      simp [hm]
    by_cases hl : lat = .fcc ∨ lat = .bcc
    · refine ⟨?_, ?_, ?_, ?_⟩
      · simp only [relationOperations, hm]
        rw [if_pos hl]
        exact iff_of_false (by simp) (fun h => h hk)
      · simp only [relationOperations, hm]
        rw [if_pos hl]
        exact iff_of_false (by simp) (fun h => h.2 hl)
      · simp only [relationOperations, hm]
        rw [if_pos hl]
        exact iff_of_true ⟨_, rfl⟩ ⟨hk, hl⟩
      · intro rel2 h2 _
        obtain rfl : rel = rel2 := Option.some.inj h2
        simp only [relationOperations, hm]
        rw [if_pos hl]
    · refine ⟨?_, ?_, ?_, ?_⟩
      · simp only [relationOperations, hm]
        rw [if_neg hl]
        exact iff_of_false (by simp) (fun h => h hk)
      · simp only [relationOperations, hm]
        rw [if_neg hl]
        exact iff_of_true rfl ⟨hk, hl⟩
      · simp only [relationOperations, hm]
        rw [if_neg hl]
        exact iff_of_false (by rintro ⟨r, h⟩; exact Except.noConfusion h)
          (fun h => hl h.2)
      · intro rel2 h2 hl2
        exact absurd hl2 hl

/-! ## C1: evaluation of the disorientation search -/

/-- The concrete other-orientation quaternion of the C1 failing input:
a rotation of `2*arccos(3/5)` (about 106 degrees) about the x axis. -/
noncomputable def qEx : Quat := ⟨3 / 5, 4 / 5, 0, 0⟩

theorem standardize_of_nonneg (q : Quat) (h : 0 ≤ q.w) : standardize q = q := by
  unfold standardize
  rw [if_neg (not_lt.mpr h)]

theorem conjQ_conjQ (q : Quat) : conjQ (conjQ q) = q := by
  refine Quat.ext ?_ ?_ ?_ ?_ <;> simp [conjQ]

theorem conjQ_idQ : conjQ idQ = idQ := by
  refine Quat.ext ?_ ?_ ?_ ?_ <;> simp [conjQ, idQ]

theorem mulR_id_left (q : Quat) (h : 0 ≤ q.w) : mulR idQ q = q := by
  unfold mulR
  have hh : hamilton idQ q = q := by
    refine Quat.ext ?_ ?_ ?_ ?_ <;> simp [hamilton, idQ, Pc]
  rw [hh]
  exact standardize_of_nonneg q h

theorem mulR_id_right (q : Quat) (h : 0 ≤ q.w) : mulR q idQ = q := by
  unfold mulR
  have hh : hamilton q idQ = q := by
    refine Quat.ext ?_ ?_ ?_ ?_ <;> simp [hamilton, idQ, Pc]
  rw [hh]
  exact standardize_of_nonneg q h

theorem getD_cubic_zero : (symQuats Symmetry.cubic).getD 0 idQ = idQ := by
  simp [symQuats, idQ]

theorem disCand_001 : disCand (symQuats Symmetry.cubic) idQ qEx 0 0 1 = qEx := by
  simp only [disCand, getD_cubic_zero]
  rw [mulR_id_left idQ (by norm_num [idQ]), conjQ_idQ,
      mulR_id_left qEx (by norm_num [qEx]),
      mulR_id_right qEx (by norm_num [qEx]), conjQ_conjQ]

theorem disCand_000 :
    disCand (symQuats Symmetry.cubic) idQ qEx 0 0 0 = conjQ qEx := by
  simp only [disCand, getD_cubic_zero]
  rw [mulR_id_left idQ (by norm_num [idQ]), conjQ_idQ,
      mulR_id_left qEx (by norm_num [qEx]),
      mulR_id_right qEx (by norm_num [qEx])]

theorem tan_arccos_35 : Real.tan (Real.arccos (3 / 5)) = 4 / 3 := by
  rw [Real.tan_arccos, show (1 : ℝ) - (3 / 5) ^ 2 = (4 / 5) ^ 2 by norm_num,
      Real.sqrt_sq (by norm_num)]
  norm_num

theorem asRodriguesVec_qEx :
    asRodriguesVec qEx = (.finite (4 / 3), .finite 0, .finite 0) := by
  have hro : qu2ro qEx = (.finite 1, .finite 0, .finite 0, .finite (4 / 3)) := by
    unfold qu2ro
    have hw : ¬ iszero qEx.w := by
      unfold iszero qEx
      rw [show |(3 : ℝ) / 5| = 3 / 5 from abs_of_pos (by norm_num)]
      norm_num
    have hsq :
        Real.sqrt (qEx.x ^ 2 + qEx.y ^ 2 + qEx.z ^ 2) = 4 / 5 := by
      rw [show qEx.x ^ 2 + qEx.y ^ 2 + qEx.z ^ 2 = ((4 : ℝ) / 5) ^ 2 by
            norm_num [qEx]]
      exact Real.sqrt_sq (by norm_num)
    have hs : ¬ iszero ((4 : ℝ) / 5) := by
      unfold iszero
      rw [show |(4 : ℝ) / 5| = 4 / 5 from abs_of_pos (by norm_num)]
      norm_num
    rw [if_neg hw, hsq, if_neg hs]
    have hclip : clip (-1) 1 qEx.w = 3 / 5 := by
      unfold clip qEx
      rw [max_eq_left (by norm_num), min_eq_left (by norm_num)]
    rw [hclip, tan_arccos_35]
    norm_num [qEx]
  unfold asRodriguesVec
  rw [hro]
  simp only [fmul]
  norm_num

theorem asRodriguesVec_conj_qEx :
    asRodriguesVec (conjQ qEx) =
      (.finite (-(4 / 3)), .finite 0, .finite 0) := by
  have hro : qu2ro (conjQ qEx) =
      (.finite (-1), .finite 0, .finite 0, .finite (4 / 3)) := by
    unfold qu2ro
    have hw : ¬ iszero (conjQ qEx).w := by
      unfold iszero conjQ qEx
      rw [show |(3 : ℝ) / 5| = 3 / 5 from abs_of_pos (by norm_num)]
      norm_num
    have hsq :
        Real.sqrt ((conjQ qEx).x ^ 2 + (conjQ qEx).y ^ 2 + (conjQ qEx).z ^ 2) =
          4 / 5 := by
      rw [show (conjQ qEx).x ^ 2 + (conjQ qEx).y ^ 2 + (conjQ qEx).z ^ 2 =
            ((4 : ℝ) / 5) ^ 2 by norm_num [conjQ, qEx]]
      exact Real.sqrt_sq (by norm_num)
    have hs : ¬ iszero ((4 : ℝ) / 5) := by
      unfold iszero
      rw [show |(4 : ℝ) / 5| = 4 / 5 from abs_of_pos (by norm_num)]
      norm_num
    rw [if_neg hw, hsq, if_neg hs]
    have hclip : clip (-1) 1 (conjQ qEx).w = 3 / 5 := by
      unfold clip conjQ qEx
      rw [max_eq_left (by norm_num), min_eq_left (by norm_num)]
    rw [hclip, tan_arccos_35]
    norm_num [conjQ, qEx]
  unfold asRodriguesVec
  rw [hro]
  simp only [fmul]
  norm_num

theorem sst_cubic_pos :
    inDisorientationSST .cubic (.finite (4 / 3)) (.finite 0) (.finite 0) := by
  refine ⟨?_, ?_, ?_⟩ <;> simp [fle, fadd, epsilonSST] <;> norm_num

theorem sst_cubic_neg :
    ¬ inDisorientationSST .cubic (.finite (-(4 / 3))) (.finite 0)
        (.finite 0) := by
  rintro ⟨h1, -, -⟩
  simp only [fadd, fle, epsilonSST] at h1
  norm_num at h1

theorem fz_cubic_neg :
    ¬ inFZcore .cubic (.finite (4 / 3)) (.finite 0) (.finite 0) := by
  rintro ⟨-, h, -⟩
  simp only [fabs, fle] at h
  rw [show |(4 : ℝ) / 3| = 4 / 3 from abs_of_pos (by norm_num)] at h
  have hs : Real.sqrt 2 < 7 / 3 := (Real.sqrt_lt' (by norm_num)).mpr (by norm_num)
  linarith

/-- C1: at the failing input — cubic symmetry, own orientation the
identity, other orientation `qEx`, `SST = True` — the search of
`Orientation.disorientation` stops at the triple `(i, j, k) = (0, 0, 1)`
and returns `qEx` itself, although the Rodrigues-Frank vector of `qEx`,
`(4/3, 0, 0)`, lies outside the cubic fundamental zone: the breaker tests
only the standard-stereographic-triangle condition, because the conjunct
written `self.in_FZ` (line 72) is an uncalled bound method and hence always
truthy, so the fundamental-zone requirement of the claim is never applied. -/
theorem disorientation_skips_fz_check :
    disorientationReturns .cubic (symQuats .cubic) idQ qEx true qEx ∧
    ¬ inFZcore .cubic (asRodriguesVec qEx).1 (asRodriguesVec qEx).2.1
        (asRodriguesVec qEx).2.2 := by
  constructor
  · refine ⟨0, 0, 1, ?_, ?_, ?_, ?_, ?_, disCand_001.symm⟩
    · simp [symQuats]
    · simp [symQuats]
    · norm_num
    · refine ⟨trivial, Or.inr ?_⟩
      simp only [disCand_001, asRodriguesVec_qEx]
      exact sst_cubic_pos
    · intro i2 j2 k2 hi hj hk2 hlt
      simp only [tripleLt] at hlt
      rcases hlt with h | ⟨h1, h | ⟨h2, h3⟩⟩
      · exact absurd h (Nat.not_lt_zero _)
      · exact absurd h (Nat.not_lt_zero _)
      · obtain rfl : k2 = 0 := by omega
        subst h1
        subst h2
        rintro ⟨-, hor⟩
        rcases hor with hb | hsst
        · exact Bool.noConfusion hb
        · rw [disCand_000, asRodriguesVec_conj_qEx] at hsst
          exact sst_cubic_neg hsst
  · rw [asRodriguesVec_qEx]
    exact fz_cubic_neg

end Damask
